import Mathlib

/-!
Verification of the Fitblocks Connect integration (`custom_components/fitblocks_connect`)
against its natural-language specification.

The Python source is shallowly embedded: JSON payloads become the inductive
`JVal`, Python dicts become association lists (`Dict`) with first-match lookup
and replace-or-append update (Python dict keys are unique, which the update
discipline preserves), datetimes become integers (UTC seconds) or the
`PyDatetime` record (naive wall-clock plus optional UTC offset), and each
relevant Python function becomes a Lean function of the same name.  External
library calls (Home Assistant's `dt_util.parse_datetime`, `datetime.strptime`,
`html.unescape`) are passed in as function parameters, so theorems quantify
over every possible behaviour of those libraries.
-/

/-- JSON-ish Python value as it appears in the upstream payloads. -/
inductive JVal where
  | null
  | bool (b : Bool)
  | int (n : Int)
  | str (s : String)
  | arr (xs : List JVal)
  | obj (fields : List (String × JVal))
deriving Repr

/-- Decidable equality for `JVal` (structural; used to model Python `is` on
the `True` singleton and `==`/`!=` on id values). -/
def JVal.beq : JVal → JVal → Bool
  | .null, .null => true
  | .bool a, .bool b => a == b
  | .int a, .int b => a == b
  | .str a, .str b => a == b
  | .arr xs, .arr ys => beqList xs ys
  | .obj xs, .obj ys => beqFields xs ys
  | _, _ => false
where
  beqList : List JVal → List JVal → Bool
    | [], [] => true
    | x :: xs, y :: ys => x.beq y && beqList xs ys
    | _, _ => false
  beqFields : List (String × JVal) → List (String × JVal) → Bool
    | [], [] => true
    | (k, v) :: xs, (l, w) :: ys => k == l && v.beq w && beqFields xs ys
    | _, _ => false

instance : BEq JVal := ⟨JVal.beq⟩

/-- A Python dict with string keys, as an association list. -/
abbrev Dict := List (String × JVal)

/-- Models `d.get(k)`: `none` models Python `None` for a missing key. -/
def dget (d : Dict) (k : String) : Option JVal :=
  match d with
  | [] => none
  | (k0, v) :: rest => if k0 = k then some v else dget rest k

/-- Models `d[k] = v`: replace the first binding of `k`, or append a new one. -/
def dset (d : Dict) (k : String) (v : JVal) : Dict :=
  match d with
  | [] => [(k, v)]
  | (k0, v0) :: rest => if k0 = k then (k0, v) :: rest else (k0, v0) :: dset rest k v

theorem dget_dset_self (d : Dict) (k : String) (v : JVal) :
    dget (dset d k v) k = some v := by
  induction d with
  | nil => simp [dget, dset]
  | cons h t ih =>
    obtain ⟨k0, v0⟩ := h
    by_cases hk : k0 = k
    · simp [dget, dset, hk]
    · simp [dget, dset, hk, ih]

theorem dget_dset_ne (d : Dict) (k k' : String) (v : JVal) (h : k' ≠ k) :
    dget (dset d k' v) k = dget d k := by
  induction d with
  | nil => simp [dget, dset, h]
  | cons hd t ih =>
    obtain ⟨k0, v0⟩ := hd
    by_cases hk : k0 = k'
    · subst hk
      simp [dget, dset, h]
    · simp [dget, dset, hk, ih]

/-- Python truthiness of `d.get(k)`-style values (`None` and missing are falsy,
`0`, `""`, `[]`, `{}` are falsy, everything else truthy). -/
def jTruthy : Option JVal → Bool
  | none => false
  | some .null => false
  | some (.bool b) => b
  | some (.int n) => n != 0
  | some (.str s) => s != ""
  | some (.arr xs) => !xs.isEmpty
  | some (.obj fs) => !fs.isEmpty

/-- Python `a or b` on two `d.get` results: the first operand if truthy,
otherwise the second. -/
def py_or (a b : Option JVal) : Option JVal :=
  if jTruthy a then a else b

/-- Models `coordinator.is_user_enrolled` (coordinator.py): Python
`event.get("subscribed") is True` — identity with the `True` singleton, so any
non-boolean value (even a truthy one) does not count as enrolled. -/
def is_user_enrolled (event : Dict) : Bool :=
  dget event "subscribed" == some (JVal.bool true)

/-- The subscription filter of `calendar._build_events` (calendar.py): events
are skipped when `not item.get("subscribed")`, i.e. kept iff the field is
truthy. -/
def calendar_shows_event (item : Dict) : Bool :=
  jTruthy (dget item "subscribed")

/-- The subscription filter used by the sensor views (sensor.py, the
`if not item.get("subscribed"): continue` guard in `async_setup_entry`,
`FitblocksConnectCreditsSensor.native_value` and
`FitblocksConnectEnrolledCountSensor.native_value`). -/
def sensor_counts_event (item : Dict) : Bool :=
  jTruthy (dget item "subscribed")

/-- Models `coordinator._update_last_known_credits`: given the schedule `data`, the
coordinator's cached `_last_known_credits` and the credit values collected
this cycle, returns the updated `data` and the updated cache.  Python's
`max(credits_values)` on a non-empty list is `xs.foldl max x`. -/
def update_last_known_credits (data : Dict) (last_known : Option Int)
    (credits_values : List Int) : Dict × Option Int :=
  match credits_values with
  | x :: xs =>
    let m := xs.foldl max x
    (dset data "last_known_credits" (.int m), some m)
  | [] =>
    match last_known with
    | some k => (dset data "last_known_credits" (.int k), some k)
    | none => (data, none)

theorem foldl_max_mem (x : Int) (xs : List Int) : xs.foldl max x ∈ x :: xs := by
  induction xs generalizing x with
  | nil => simp
  | cons y ys ih =>
    rw [List.foldl_cons]
    rcases List.mem_cons.mp (ih (max x y)) with h1 | h1
    · rcases max_choice x y with hm | hm
      · rw [h1, hm]
        exact List.mem_cons_self _ _
      · rw [h1, hm]
        exact List.mem_cons.mpr (Or.inr (List.mem_cons_self _ _))
    · exact List.mem_cons.mpr (Or.inr (List.mem_cons.mpr (Or.inr h1)))

theorem foldl_max_init_le (a : Int) (l : List Int) : a ≤ l.foldl max a := by
  induction l generalizing a with
  | nil => simp
  | cons b bs ih =>
    rw [List.foldl_cons]
    exact le_trans (le_max_left a b) (ih (max a b))

theorem le_foldl_max (x : Int) (xs : List Int) (c : Int) (hc : c ∈ x :: xs) :
    c ≤ xs.foldl max x := by
  induction xs generalizing x with
  | nil =>
    simp at hc
    simp [hc]
  | cons y ys ih =>
    rw [List.foldl_cons]
    rcases List.mem_cons.mp hc with h1 | h1
    · subst h1
      exact le_trans (le_max_left c y) (foldl_max_init_le _ _)
    · rcases List.mem_cons.mp h1 with h2 | h2
      · subst h2
        exact le_trans (le_max_right x c) (foldl_max_init_le _ _)
      · exact ih (max x y) (List.mem_cons.mpr (Or.inr h2))

/-- C4: For every refresh cycle: if the cycle collected at least one
remaining-credits value, the published schedule's `last_known_credits` equals
the maximum of the collected values and the coordinator state is updated to
that maximum; otherwise, if a previous cycle had set `last_known_credits = K`,
this cycle's schedule still reports `K` unchanged
(`coordinator._update_last_known_credits`). -/
theorem coordinator_credits_stickiness (data : Dict) (last_known : Option Int)
    (credits_values : List Int) :
    (credits_values ≠ [] →
      ∃ m, m ∈ credits_values ∧ (∀ c ∈ credits_values, c ≤ m) ∧
        dget (update_last_known_credits data last_known credits_values).1
          "last_known_credits" = some (.int m) ∧
        (update_last_known_credits data last_known credits_values).2 = some m)
    ∧ (∀ k, credits_values = [] → last_known = some k →
        dget (update_last_known_credits data last_known credits_values).1
          "last_known_credits" = some (.int k) ∧
        (update_last_known_credits data last_known credits_values).2 = some k) := by
  constructor
  · intro hne
    cases credits_values with
    | nil => exact absurd rfl hne
    | cons x xs =>
      refine ⟨xs.foldl max x, foldl_max_mem x xs,
        (fun c hc => le_foldl_max x xs c hc), ?_, ?_⟩
      · simp only [update_last_known_credits]
        exact dget_dset_self _ _ _
      · rfl
  · intro k hcv hlk
    subst hcv
    subst hlk
    constructor
    · simp only [update_last_known_credits]
      exact dget_dset_self _ _ _
    · rfl

/-- Witness for C4 at concrete inputs: credit values `[3, 7, 5]` yield a
maximum, and an empty cycle carries a cached `9` forward. -/
theorem coordinator_credits_stickiness_witness :
    (∃ m, m ∈ [(3 : Int), 7, 5] ∧ (∀ c ∈ [(3 : Int), 7, 5], c ≤ m) ∧
      dget (update_last_known_credits [] none [3, 7, 5]).1
        "last_known_credits" = some (.int m) ∧
      (update_last_known_credits [] none [3, 7, 5]).2 = some m)
    ∧ (dget (update_last_known_credits [] (some 9) []).1
          "last_known_credits" = some (.int 9) ∧
        (update_last_known_credits [] (some 9) []).2 = some 9) :=
  ⟨(coordinator_credits_stickiness [] none [3, 7, 5]).1 (by decide),
   (coordinator_credits_stickiness [] (some 9) []).2 9 rfl rfl⟩

/-- C5: the predicate "this event concerns the current user" is
`event.get("subscribed") is True` (`coordinator.is_user_enrolled`), and the
presentation projections (`calendar._build_events`, the sensor views) agree
with it on every event whose `subscribed` field is absent, null, or a boolean
— which is exactly the event shape the integration declares
(`models.FitblocksScheduleEvent` types `subscribed: bool`).  No other field is
consulted by any of these predicates. -/
theorem subscribed_sole_criterion (item : Dict)
    (hb : ∀ v, dget item "subscribed" = some v →
        v = JVal.null ∨ ∃ b, v = JVal.bool b) :
    calendar_shows_event item = is_user_enrolled item ∧
      sensor_counts_event item = is_user_enrolled item := by
  have key : jTruthy (dget item "subscribed") =
      (dget item "subscribed" == some (JVal.bool true)) := by
    cases h : dget item "subscribed" with
    | none => rfl
    | some v =>
      rcases hb v h with hv | ⟨b, hv⟩
      · subst hv; rfl
      · subst hv; cases b <;> rfl
  exact ⟨key, key⟩

/-- Witness for C5 at a concrete subscribed event. -/
theorem subscribed_sole_criterion_witness :
    calendar_shows_event [("subscribed", JVal.bool true)] =
      is_user_enrolled [("subscribed", JVal.bool true)] ∧
    sensor_counts_event [("subscribed", JVal.bool true)] =
      is_user_enrolled [("subscribed", JVal.bool true)] :=
  subscribed_sole_criterion [("subscribed", JVal.bool true)] (by
    intro v hv
    have h0 : dget [("subscribed", JVal.bool true)] "subscribed" =
        some (JVal.bool true) := rfl
    rw [h0] at hv
    exact Or.inr ⟨true, (Option.some_inj.mp hv).symm⟩)

/-! ## HTTP session client (client.py)

The client's mutable session is `ClientState` (`_csrf_token`, `_logged_in`).
HTTP responses are supplied by an environment record: an HTML page response is
its status plus the result of `_extract_csrf_token` on its body (the CSRF
meta-tag content, when the regex matches).  The error classes of client.py
form `FbError`; a direct `raise FitblocksConnectError(...)` of the base class
is the spec taxonomy's `ProtocolError` ("expected HTML structure not found /
unexpected login-flow status"), and is modelled by the `protocolError`
constructor carrying the source's message text. -/

structure ClientState where
  csrf_token : Option String
  logged_in : Bool
deriving Repr, DecidableEq

/-- Error taxonomy of client.py.  `protocolError` models a direct raise of the
base `FitblocksConnectError`; the remaining constructors model its
subclasses. -/
inductive FbError where
  | protocolError (msg : String)
  | authError (msg : String)
  | connectionError
  | sslError
  | apiError (status : Nat)
deriving Repr, DecidableEq

/-- An HTML page response: HTTP status plus the CSRF meta-tag content that
`_extract_csrf_token` would find in the body (`none` when the meta tag is
absent).  The token regex group matches `[^"']+`, hence is non-empty when
present. -/
structure PageResp where
  status : Nat
  csrf_meta : Option String
deriving Repr, DecidableEq

/-- Upstream responses consumed by the login flow. -/
structure LoginEnv where
  login_page : PageResp
  login_post_status : Nat
  schedule_page : PageResp
deriving Repr, DecidableEq

/-- Python truthiness of `self._csrf_token` (`None` and `""` are falsy). -/
def csrf_truthy : Option String → Bool
  | none => false
  | some t => t != ""

/-- Models `FitblocksConnectClient._async_refresh_csrf_from_schedule`: GET the
schedule page; on a non-200 status or a missing meta tag keep the existing
token, otherwise store the scraped token.  (In the source this can also raise
a transport error, which `async_login` swallows; transport failures of this
best-effort call are therefore modelled as the non-200 branch.) -/
def async_refresh_csrf_from_schedule (env : LoginEnv) (s : ClientState) :
    ClientState :=
  if env.schedule_page.status ≠ 200 then s
  else
    match env.schedule_page.csrf_meta with
    | some csrf => { s with csrf_token := some csrf }
    | none => s

/-- Models `FitblocksConnectClient.async_login`: returns the mutated state plus the
raised error, if any (Python exceptions do not roll back prior mutations, so
the state is returned even on failure). -/
def async_login (env : LoginEnv) (s : ClientState) :
    ClientState × Option FbError :=
  if env.login_page.status ≠ 200 then
    (s, some (.protocolError
      ("Unexpected status for login page: " ++ toString env.login_page.status)))
  else
    match env.login_page.csrf_meta with
    | none => (s, some (.protocolError "CSRF token not found on login page"))
    | some csrf =>
      let s := { s with csrf_token := some csrf }
      if env.login_post_status ≠ 200 ∧ env.login_post_status ≠ 302 then
        if env.login_post_status = 401 ∨ env.login_post_status = 403 then
          (s, some (.authError "Invalid credentials"))
        else
          (s, some (.protocolError
            ("Login failed with status " ++ toString env.login_post_status)))
      else
        let s := async_refresh_csrf_from_schedule env s
        ({ s with logged_in := true }, none)

/-- Models `FitblocksConnectClient._ensure_logged_in`: a no-op when `_logged_in` and
`_csrf_token` are both truthy, otherwise runs the login flow. -/
def ensure_logged_in (env : LoginEnv) (s : ClientState) :
    ClientState × Option FbError :=
  if s.logged_in && csrf_truthy s.csrf_token then (s, none)
  else async_login env s

/-- Responses consumed by `async_get_schedule`: the login-flow responses (used
only if `_ensure_logged_in` has to log in) plus the `schedule/json`
response. -/
structure ScheduleEnv extends LoginEnv where
  schedule_json_status : Nat
  schedule_json_data : Dict
deriving Repr

/-- Models `FitblocksConnectClient.async_get_schedule`: ensure logged in, build the
CSRF headers (`_ensure_csrf_header` raises the base error when the token is
missing), then map the response: 401 to `AuthError`, any other non-200 to
`ApiError`, 200 to the parsed JSON body.  Returns the mutated state alongside
the outcome. -/
def async_get_schedule (env : ScheduleEnv) (s : ClientState) :
    ClientState × Except FbError Dict :=
  let r := ensure_logged_in env.toLoginEnv s
  match r.2 with
  | some e => (r.1, .error e)
  | none =>
    let s := r.1
    if ¬ csrf_truthy s.csrf_token then
      (s, .error (.protocolError "CSRF token not available"))
    else if env.schedule_json_status = 401 then
      (s, .error (.authError "Unauthorized while fetching schedule"))
    else if env.schedule_json_status ≠ 200 then
      (s, .error (.apiError env.schedule_json_status))
    else
      (s, .ok env.schedule_json_data)

/-- An authenticated session holding a token, as left behind by a successful
login. -/
def c1_state : ClientState := { csrf_token := some "tok", logged_in := true }

/-- An environment whose `schedule/json` endpoint answers 401 Unauthorized. -/
def c1_env : ScheduleEnv :=
  { login_page := { status := 200, csrf_meta := some "tok2" },
    login_post_status := 200,
    schedule_page := { status := 200, csrf_meta := none },
    schedule_json_status := 401,
    schedule_json_data := [] }

/-- C1 counterexample: a 401 on `schedule/json` raises `AuthError`, but the
client's `_logged_in` flag is still `true` afterwards (the claim says it is
reset to `false`), and the next `_ensure_logged_in` call is a no-op — it does
not re-run the login flow.  No assignment `self._logged_in = False` exists
anywhere in client.py. -/
theorem client_auth_flag_reset_counterexample :
    (async_get_schedule c1_env c1_state).2 =
      .error (.authError "Unauthorized while fetching schedule")
    ∧ (async_get_schedule c1_env c1_state).1.logged_in = true
    ∧ ensure_logged_in c1_env.toLoginEnv (async_get_schedule c1_env c1_state).1 =
        ((async_get_schedule c1_env c1_state).1, none) :=
  ⟨rfl, rfl, rfl⟩

/-- C1 (amended): when a call returns an unauthorized response the client
raises `AuthError` but leaves the session state — including the authenticated
flag — unchanged; as long as the flag and a non-empty token are present, the
next call's `_ensure_logged_in` does not re-run login.  (Recovery is instead
delegated to the host: the coordinator escalates the `AuthError` as
`ConfigEntryAuthFailed`.) -/
theorem client_unauthorized_leaves_session_authenticated
    (env : ScheduleEnv) (s : ClientState)
    (hl : s.logged_in = true) (ht : csrf_truthy s.csrf_token = true)
    (h401 : env.schedule_json_status = 401) :
    async_get_schedule env s =
      (s, .error (.authError "Unauthorized while fetching schedule"))
    ∧ ensure_logged_in env.toLoginEnv s = (s, none) := by
  have he : ensure_logged_in env.toLoginEnv s = (s, none) := by
    unfold ensure_logged_in
    rw [hl, ht]
    simp
  refine ⟨?_, he⟩
  unfold async_get_schedule
  rw [he]
  simp [ht, h401]

/-- Witness for the amended C1 at the concrete 401 scenario. -/
theorem client_unauthorized_leaves_session_authenticated_witness :
    async_get_schedule c1_env c1_state =
      (c1_state, .error (.authError "Unauthorized while fetching schedule"))
    ∧ ensure_logged_in c1_env.toLoginEnv c1_state = (c1_state, none) :=
  client_unauthorized_leaves_session_authenticated c1_env c1_state rfl rfl rfl

/-- C6: `async_login` fails with the base `FitblocksConnectError` — the
spec taxonomy's `ProtocolError` — when the CSRF meta tag is absent from the
login page; a non-(200|302) status for the credentials POST other than
401/403 also fails with that base error; and a 401 or 403 POST status fails
specifically with `AuthError`. -/
theorem async_login_error_mapping (env : LoginEnv) (s : ClientState)
    (hpage : env.login_page.status = 200) :
    (env.login_page.csrf_meta = none →
      (async_login env s).2 =
        some (.protocolError "CSRF token not found on login page"))
    ∧ (∀ csrf, env.login_page.csrf_meta = some csrf →
        (env.login_post_status = 401 ∨ env.login_post_status = 403) →
        (async_login env s).2 = some (.authError "Invalid credentials"))
    ∧ (∀ csrf, env.login_page.csrf_meta = some csrf →
        env.login_post_status ≠ 200 → env.login_post_status ≠ 302 →
        env.login_post_status ≠ 401 → env.login_post_status ≠ 403 →
        (async_login env s).2 = some (.protocolError
          ("Login failed with status " ++ toString env.login_post_status))) := by
  refine ⟨?_, ?_, ?_⟩
  · intro hmeta
    unfold async_login
    simp [hpage, hmeta]
  · intro csrf hmeta hpost
    unfold async_login
    rcases hpost with h | h <;> simp [hpage, hmeta, h]
  · intro csrf hmeta h200 h302 h401 h403
    unfold async_login
    simp [hpage, hmeta, h200, h302, h401, h403]

/-- Login page whose CSRF meta tag is missing. -/
def c6_env_meta_missing : LoginEnv :=
  { login_page := { status := 200, csrf_meta := none },
    login_post_status := 200,
    schedule_page := { status := 200, csrf_meta := none } }

/-- Credentials POST rejected with 401. -/
def c6_env_auth : LoginEnv :=
  { login_page := { status := 200, csrf_meta := some "t" },
    login_post_status := 401,
    schedule_page := { status := 200, csrf_meta := none } }

/-- Credentials POST failing with an unexpected 500. -/
def c6_env_other : LoginEnv :=
  { login_page := { status := 200, csrf_meta := some "t" },
    login_post_status := 500,
    schedule_page := { status := 200, csrf_meta := none } }

/-- Witness for C6 on the three concrete environments. -/
theorem async_login_error_mapping_witness :
    (async_login c6_env_meta_missing ⟨none, false⟩).2 =
      some (.protocolError "CSRF token not found on login page")
    ∧ (async_login c6_env_auth ⟨none, false⟩).2 =
        some (.authError "Invalid credentials")
    ∧ (async_login c6_env_other ⟨none, false⟩).2 =
        some (.protocolError ("Login failed with status " ++ toString (500 : Nat))) :=
  ⟨(async_login_error_mapping c6_env_meta_missing ⟨none, false⟩ rfl).1 rfl,
   (async_login_error_mapping c6_env_auth ⟨none, false⟩ rfl).2.1 "t" rfl (Or.inl rfl),
   (async_login_error_mapping c6_env_other ⟨none, false⟩ rfl).2.2 "t" rfl
     (by decide) (by decide) (by decide) (by decide)⟩

/-! ## Coordinator refresh-cycle error handling (coordinator.py) -/

/-- A Python exception reaching `_async_fetch_schedule`'s `try` block: either
one of the integration's own errors, or any other `Exception`-derived fault.
(`BaseException`-only signals such as task cancellation are outside the
model, as they are for Python's own `except Exception`.) -/
inductive PyExc where
  | fb (e : FbError)
  | otherExc
deriving Repr, DecidableEq

/-- Whether the `except FitblocksConnectAuthError` clause matches. -/
def is_auth_error : PyExc → Bool
  | .fb (.authError _) => true
  | _ => false

/-- Whether the `except FitblocksConnectError` clause matches (the base class catches every
subclass, including `AuthError`, but the auth clause comes first). -/
def is_fb_error : PyExc → Bool
  | .fb _ => true
  | .otherExc => false

/-- What one refresh escalates to the host. -/
inductive CoordOutcome where
  | ok (d : Dict)
  | configEntryAuthFailed
  | updateFailed (msg : String)
  | unhandled (e : PyExc)
deriving Repr

/-- Models `coordinator._async_fetch_schedule`: the `try/except` dispatch around
`client.async_get_schedule`, with the clauses in source order.  `unhandled`
is the fall-through for an exception no clause catches. -/
def fetch_schedule_outcome (r : Except PyExc Dict) : CoordOutcome :=
  match r with
  | .ok d => .ok d
  | .error e =>
    if is_auth_error e then .configEntryAuthFailed
    else if is_fb_error e then
      .updateFailed "Error communicating with Fitblocks Connect API"
    else .updateFailed "Unexpected error"

/-- C2: an `AuthError` from the schedule fetch escalates as the distinct
re-authentication condition (`ConfigEntryAuthFailed`); any other error of the
integration's taxonomy becomes `UpdateFailed`; any other exception also
becomes `UpdateFailed`; and no exception ever falls through unhandled. -/
theorem coordinator_fetch_error_escalation (r : Except PyExc Dict) :
    (∀ m, r = .error (.fb (.authError m)) →
      fetch_schedule_outcome r = .configEntryAuthFailed)
    ∧ (∀ e, r = .error (.fb e) → (∀ m, e ≠ .authError m) →
        fetch_schedule_outcome r =
          .updateFailed "Error communicating with Fitblocks Connect API")
    ∧ (r = .error .otherExc →
        fetch_schedule_outcome r = .updateFailed "Unexpected error")
    ∧ (∀ e, fetch_schedule_outcome r ≠ .unhandled e) := by
  refine ⟨?_, ?_, ?_, ?_⟩
  · intro m hr
    subst hr
    rfl
  · intro e hr hne
    subst hr
    cases e with
    | authError m => exact absurd rfl (hne m)
    | protocolError m => rfl
    | connectionError => rfl
    | sslError => rfl
    | apiError st => rfl
  · intro hr
    subst hr
    rfl
  · intro e
    match r with
    | .ok d => simp [fetch_schedule_outcome]
    | .error (.fb (.authError _)) => simp [fetch_schedule_outcome, is_auth_error]
    | .error (.fb (.protocolError m)) =>
      simp [fetch_schedule_outcome, is_auth_error, is_fb_error]
    | .error (.fb .connectionError) =>
      simp [fetch_schedule_outcome, is_auth_error, is_fb_error]
    | .error (.fb .sslError) =>
      simp [fetch_schedule_outcome, is_auth_error, is_fb_error]
    | .error (.fb (.apiError st)) =>
      simp [fetch_schedule_outcome, is_auth_error, is_fb_error]
    | .error .otherExc =>
      simp [fetch_schedule_outcome, is_auth_error, is_fb_error]

/-- Witness for C2 on a concrete `AuthError` result. -/
theorem coordinator_fetch_error_escalation_witness :
    fetch_schedule_outcome (.error (.fb (.authError "Unauthorized"))) =
      .configEntryAuthFailed
    ∧ fetch_schedule_outcome (.error (.fb .connectionError)) =
        .updateFailed "Error communicating with Fitblocks Connect API"
    ∧ fetch_schedule_outcome (.error .otherExc) =
        .updateFailed "Unexpected error" :=
  ⟨(coordinator_fetch_error_escalation
      (.error (.fb (.authError "Unauthorized")))).1 "Unauthorized" rfl,
   (coordinator_fetch_error_escalation (.error (.fb .connectionError))).2.1
     .connectionError rfl (fun _ h => FbError.noConfusion h),
   (coordinator_fetch_error_escalation (.error .otherExc)).2.2.1 rfl⟩

/-! ## Datetime normalizer (util.py)

A Python `datetime` is modelled as a naive wall-clock reading (seconds) plus
an optional fixed UTC offset (`none` = naive).  Home Assistant's configured
local zone is modelled as the fixed offset `default_tz` (seconds east of
UTC).  `dt_util.parse_datetime` and `datetime.strptime(value,
"%Y-%m-%d %H:%M:%S")` are external parsers, passed as parameters: the first
may return an aware or naive datetime, the second by construction returns a
naive wall-clock value (the format has no zone directive), or fails —
`strptime`'s `ValueError` is the `none` case, matching the `except
ValueError: return None` in the source. -/

structure PyDatetime where
  wall : Int
  tz : Option Int
deriving Repr, DecidableEq

/-- Models `value.replace(tzinfo=...)`: reinterpret the same wall-clock reading in
the given zone. -/
def replace_tzinfo (d : PyDatetime) (tz : Option Int) : PyDatetime :=
  { d with tz := tz }

/-- Models `dt_util.as_utc`: convert to UTC; a naive value is assumed to be in the
host's local zone. -/
def as_utc (d : PyDatetime) (default_tz : Int) : PyDatetime :=
  match d.tz with
  | some o => { wall := d.wall - o, tz := some 0 }
  | none => { wall := d.wall - default_tz, tz := some 0 }

/-- Models `util.parse_fitblocks_datetime`: try `dt_util.parse_datetime`, fall back
to `strptime` with the space-separated naive shape, return `None` if both
fail; a naive result is interpreted in the host's local zone; the result is
converted to UTC. -/
def parse_fitblocks_datetime (parse_datetime : String → Option PyDatetime)
    (strptime_naive : String → Option Int) (default_tz : Int)
    (value : String) : Option PyDatetime :=
  let parsed : Option PyDatetime :=
    match parse_datetime value with
    | some p => some p
    | none =>
      match strptime_naive value with
      | some w => some { wall := w, tz := none }
      | none => none
  match parsed with
  | none => none
  | some p =>
    let p := if p.tz = none then replace_tzinfo p (some default_tz) else p
    some (as_utc p default_tz)

/-- C7: the normalizer returns `none` (it never raises: `strptime` failure is
the caught-`ValueError` branch) exactly when neither accepted shape parses;
every parseable zoneless value is interpreted in the host's configured local
zone (offset `default_tz`); and every non-`none` output is a UTC instant
(offset `0`). -/
theorem parse_fitblocks_datetime_normalization
    (parse_datetime : String → Option PyDatetime)
    (strptime_naive : String → Option Int) (default_tz : Int) (value : String) :
    (parse_datetime value = none → strptime_naive value = none →
      parse_fitblocks_datetime parse_datetime strptime_naive default_tz value
        = none)
    ∧ (∀ d, parse_fitblocks_datetime parse_datetime strptime_naive default_tz
          value = some d → d.tz = some 0)
    ∧ (∀ p, parse_datetime value = some p → p.tz = none →
        parse_fitblocks_datetime parse_datetime strptime_naive default_tz value
          = some { wall := p.wall - default_tz, tz := some 0 })
    ∧ (∀ w, parse_datetime value = none → strptime_naive value = some w →
        parse_fitblocks_datetime parse_datetime strptime_naive default_tz value
          = some { wall := w - default_tz, tz := some 0 }) := by
  refine ⟨?_, ?_, ?_, ?_⟩
  · intro h1 h2
    simp [parse_fitblocks_datetime, h1, h2]
  · intro d hd
    unfold parse_fitblocks_datetime at hd
    cases hp : parse_datetime value with
    | some p =>
      rw [hp] at hd
      simp at hd
      cases htz : p.tz with
      | none =>
        simp [htz, replace_tzinfo, as_utc] at hd
        rw [← hd]
      | some o =>
        simp [htz, as_utc] at hd
        rw [← hd]
    | none =>
      rw [hp] at hd
      cases hs : strptime_naive value with
      | some w =>
        rw [hs] at hd
        simp [replace_tzinfo, as_utc] at hd
        rw [← hd]
      | none =>
        rw [hs] at hd
        simp at hd
  · intro p hp htz
    simp [parse_fitblocks_datetime, hp, htz, replace_tzinfo, as_utc]
  · intro w h1 h2
    simp [parse_fitblocks_datetime, h1, h2, replace_tzinfo, as_utc]

/-- A parser observing only the literal `"2025-01-02 03:04:05"` (as a naive
wall-clock reading of 100 seconds), to instantiate C7 concretely. -/
def c7_strptime : String → Option Int :=
  fun s => if s = "2025-01-02 03:04:05" then some 100 else none

/-- Witness for C7: an unparseable string maps to `none`, and the naive shape
is shifted by the local offset (3600) and stamped UTC. -/
theorem parse_fitblocks_datetime_normalization_witness :
    parse_fitblocks_datetime (fun _ => none) c7_strptime 3600 "garbage" = none
    ∧ parse_fitblocks_datetime (fun _ => none) c7_strptime 3600
        "2025-01-02 03:04:05" = some { wall := 100 - 3600, tz := some 0 } :=
  ⟨(parse_fitblocks_datetime_normalization (fun _ => none) c7_strptime 3600
      "garbage").1 rfl (by decide),
   (parse_fitblocks_datetime_normalization (fun _ => none) c7_strptime 3600
      "2025-01-02 03:04:05").2.2.2 100 rfl (by decide)⟩

/-! ## Enroll service handler (__init__.py) -/

/-- A side effect the `enroll` service handler can perform after its
validation step: the client POST and the follow-up coordinator refresh. -/
inductive ServiceCall where
  | enrollRequest (start_dt end_dt : Int) (class_type_id : String)
  | requestRefresh
deriving Repr, DecidableEq

/-- What the `enroll` service handler raises or returns. -/
inductive ServiceOutcome where
  | ok (status : String)
  | validationError (translation_key : String)
  | haError (translation_key : String)
deriving Repr, DecidableEq

/-- Models `handle_enroll` (__init__.py), from its validation step onward: reject
with `ServiceValidationError` when `end <= start`, otherwise call
`client.async_enroll` (whose outcome is supplied as `client_result`), map
`AuthError` / other client errors to the two `HomeAssistantError` translation
keys, and request a coordinator refresh on success.  The second component is
the ordered list of effects actually performed. -/
def handle_enroll (client_result : Except FbError String)
    (start_dt end_dt : Int) (class_type_id : String) :
    ServiceOutcome × List ServiceCall :=
  if end_dt ≤ start_dt then
    (.validationError "end_time_after_start_time", [])
  else
    match client_result with
    | .ok status =>
      (.ok status,
        [.enrollRequest start_dt end_dt class_type_id, .requestRefresh])
    | .error (.authError _) =>
      (.haError "service_auth_failed",
        [.enrollRequest start_dt end_dt class_type_id])
    | .error _ =>
      (.haError "service_call_failed",
        [.enrollRequest start_dt end_dt class_type_id])

/-- C8: every `enroll` invocation with `end <= start` is rejected with a
validation error before any network call: the client is never invoked and no
effect is performed. -/
theorem enroll_rejects_inverted_interval (client_result : Except FbError String)
    (start_dt end_dt : Int) (class_type_id : String)
    (h : end_dt ≤ start_dt) :
    handle_enroll client_result start_dt end_dt class_type_id =
      (.validationError "end_time_after_start_time", []) := by
  simp [handle_enroll, h]

/-- Witness for C8: enrolling with `end = start` performs nothing. -/
theorem enroll_rejects_inverted_interval_witness :
    handle_enroll (.ok "success") 1000 1000 "ct-1" =
      (.validationError "end_time_after_start_time", []) :=
  enroll_rejects_inverted_interval (.ok "success") 1000 1000 "ct-1" (by decide)

/-! ## Enrichment selection (coordinator.py) -/

/-- Python `str()` restricted to the id values that reach `str(event_id)`
(upstream ids are strings or numbers; container reprs are collapsed to a
placeholder). -/
def py_str : JVal → String
  | .str s => s
  | .int n => toString n
  | .bool b => if b then "True" else "False"
  | .null => "None"
  | .arr _ => "[...]"
  | .obj _ => "\x7b...\x7d"

/-- Models `isinstance(x, str)` guard: the string payload, when the value is one. -/
def jval_as_str : Option JVal → Option String
  | some (.str s) => some s
  | _ => none

/-- The tuple `_prepare_event_detail_call` returns: parameters for one
`classTypeDetails` call.  Instants are UTC seconds, as produced by
`parse_fitblocks_datetime`. -/
structure Prepared where
  class_type_id : JVal
  event_id : String
  start_dt : Int
  end_dt : Int
deriving Repr

/-- Models `coordinator._prepare_event_detail_call`: require truthy `classTypeId`,
`eventId` (falling back to `id`), `start` and `end`; require the time fields
to be strings; require both to parse (`parse` stands for
`parse_fitblocks_datetime`, yielding a UTC instant). -/
def prepare_event_detail_call (parse : String → Option Int) (event : Dict) :
    Option Prepared :=
  let class_type_id := dget event "classTypeId"
  let event_id := py_or (dget event "eventId") (dget event "id")
  let start_v := dget event "start"
  let end_v := dget event "end"
  if !(jTruthy class_type_id && jTruthy event_id && jTruthy start_v
      && jTruthy end_v) then
    none
  else
    match jval_as_str start_v, jval_as_str end_v with
    | some start_str, some end_str =>
      match parse start_str, parse end_str with
      | some start_dt, some end_dt =>
        some { class_type_id := class_type_id.getD .null,
               event_id := py_str (event_id.getD .null),
               start_dt := start_dt, end_dt := end_dt }
      | _, _ => none
    | _, _ => none


/-- Models `isinstance(item, dict)`: the fields when the value is a dict. -/
def as_fields : JVal → Option Dict
  | .obj f => some f
  | _ => none

/-- One iteration of the `_select_fallback_event` loop: skip non-dicts,
skip unpreparable events, skip events that already started (`start_dt < now`),
and keep the strictly earliest-starting candidate (the first one wins ties). -/
def select_fallback_step (parse : String → Option Int) (now : Int)
    (acc : Option (Dict × Prepared)) (item : JVal) : Option (Dict × Prepared) :=
  match as_fields item with
  | none => acc
  | some fields =>
    match prepare_event_detail_call parse fields with
    | none => acc
    | some p =>
      if p.start_dt < now then acc
      else
        match acc with
        | none => some (fields, p)
        | some (ref0, p0) =>
          if p.start_dt < p0.start_dt then some (fields, p) else some (ref0, p0)

/-- Models `coordinator._select_fallback_event`: the soonest upcoming preparable
event, if any. -/
def select_fallback_event (parse : String → Option Int)
    (raw_events : List JVal) (now : Int) : Option (Dict × Prepared) :=
  raw_events.foldl (select_fallback_step parse now) none

/-- Models `coordinator._build_detail_tasks`: detail-call parameters (the "tasks")
and the matching event references.  Enrolled preparable events are selected
first; only when that leaves nothing is the single fallback event used. -/
def build_detail_tasks (parse : String → Option Int)
    (raw_events : List JVal) (now : Int) : List Prepared × List Dict :=
  let pairs := raw_events.filterMap (fun item =>
    match as_fields item with
    | some fields =>
      if is_user_enrolled fields then
        (prepare_event_detail_call parse fields).map (fun p => (p, fields))
      else none
    | none => none)
  match pairs with
  | [] =>
    match select_fallback_event parse raw_events now with
    | none => ([], [])
    | some (ref, p) => ([p], [ref])
  | _ => (pairs.map Prod.fst, pairs.map Prod.snd)

/-- Holds when `item` is a dict that prepares to `q` and starts at or after `now`:
exactly the events the fallback loop does not skip. -/
def future_prepared (parse : String → Option Int) (now : Int)
    (item : JVal) (q : Prepared) : Prop :=
  ∃ f, item = JVal.obj f ∧ prepare_event_detail_call parse f = some q
    ∧ now ≤ q.start_dt

theorem select_fallback_step_mono (parse : String → Option Int) (now : Int)
    (item : JVal) (a : Dict × Prepared) :
    ∃ b, select_fallback_step parse now (some a) item = some b
      ∧ b.2.start_dt ≤ a.2.start_dt := by
  obtain ⟨ref0, p0⟩ := a
  cases hf : as_fields item with
  | none => exact ⟨(ref0, p0), by simp [select_fallback_step, hf], le_refl _⟩
  | some fields =>
    cases hp : prepare_event_detail_call parse fields with
    | none => exact ⟨(ref0, p0), by simp [select_fallback_step, hf, hp], le_refl _⟩
    | some p =>
      by_cases hlt : p.start_dt < now
      · exact ⟨(ref0, p0), by simp [select_fallback_step, hf, hp, hlt], le_refl _⟩
      · by_cases hmin : p.start_dt < p0.start_dt
        · exact ⟨(fields, p),
            by simp [select_fallback_step, hf, hp, hlt, hmin], le_of_lt hmin⟩
        · exact ⟨(ref0, p0),
            by simp [select_fallback_step, hf, hp, hlt, hmin], le_refl _⟩

theorem select_fallback_fold_mono (parse : String → Option Int) (now : Int)
    (l : List JVal) (a : Dict × Prepared) :
    ∃ b, l.foldl (select_fallback_step parse now) (some a) = some b
      ∧ b.2.start_dt ≤ a.2.start_dt := by
  induction l generalizing a with
  | nil => exact ⟨a, rfl, le_refl _⟩
  | cons x xs ih =>
    obtain ⟨b1, hb1, hle1⟩ := select_fallback_step_mono parse now x a
    obtain ⟨b, hb, hle⟩ := ih b1
    refine ⟨b, ?_, le_trans hle hle1⟩
    rw [List.foldl_cons, hb1]
    exact hb

theorem select_fallback_step_future_le (parse : String → Option Int) (now : Int)
    (acc : Option (Dict × Prepared)) (item : JVal) (q : Prepared)
    (hq : future_prepared parse now item q) :
    ∃ b, select_fallback_step parse now acc item = some b
      ∧ b.2.start_dt ≤ q.start_dt := by
  obtain ⟨f, rfl, hp, hge⟩ := hq
  have hlt : ¬ q.start_dt < now := not_lt.mpr hge
  have hf : as_fields (JVal.obj f) = some f := rfl
  cases acc with
  | none =>
    exact ⟨(f, q), by simp [select_fallback_step, hf, hp, hlt], le_refl _⟩
  | some a =>
    obtain ⟨ref0, p0⟩ := a
    by_cases hmin : q.start_dt < p0.start_dt
    · exact ⟨(f, q),
        by simp [select_fallback_step, hf, hp, hlt, hmin], le_refl _⟩
    · exact ⟨(ref0, p0),
        by simp [select_fallback_step, hf, hp, hlt, hmin], not_lt.mp hmin⟩

theorem select_fallback_step_ge (parse : String → Option Int) (now : Int)
    (acc : Option (Dict × Prepared)) (item : JVal) (b : Dict × Prepared)
    (hacc : ∀ a, acc = some a → now ≤ a.2.start_dt)
    (hb : select_fallback_step parse now acc item = some b) :
    now ≤ b.2.start_dt := by
  unfold select_fallback_step at hb
  cases hf : as_fields item with
  | none =>
    rw [hf] at hb
    exact hacc b hb
  | some fields =>
    rw [hf] at hb
    simp only [] at hb
    cases hp : prepare_event_detail_call parse fields with
    | none =>
      rw [hp] at hb
      exact hacc b hb
    | some p =>
      rw [hp] at hb
      simp only [] at hb
      by_cases hlt : p.start_dt < now
      · rw [if_pos hlt] at hb
        exact hacc b hb
      · rw [if_neg hlt] at hb
        cases hc : acc with
        | none =>
          rw [hc] at hb
          simp at hb
          rw [← hb]
          exact not_lt.mp hlt
        | some a =>
          obtain ⟨ref0, p0⟩ := a
          rw [hc] at hb
          simp only [] at hb
          by_cases hmin : p.start_dt < p0.start_dt
          · rw [if_pos hmin] at hb
            simp at hb
            rw [← hb]
            exact not_lt.mp hlt
          · rw [if_neg hmin] at hb
            simp at hb
            rw [← hb]
            exact hacc (ref0, p0) hc

theorem select_fallback_fold_ge (parse : String → Option Int) (now : Int)
    (l : List JVal) :
    ∀ acc, (∀ a, acc = some a → now ≤ a.2.start_dt) →
      ∀ b, l.foldl (select_fallback_step parse now) acc = some b →
        now ≤ b.2.start_dt := by
  induction l with
  | nil =>
    intro acc hacc b hb
    exact hacc b hb
  | cons x xs ih =>
    intro acc hacc b hb
    rw [List.foldl_cons] at hb
    refine ih (select_fallback_step parse now acc x) ?_ b hb
    intro a ha
    exact select_fallback_step_ge parse now acc x a hacc ha

theorem select_fallback_fold_min (parse : String → Option Int) (now : Int)
    (l : List JVal) :
    ∀ acc b, l.foldl (select_fallback_step parse now) acc = some b →
      ∀ item ∈ l, ∀ q, future_prepared parse now item q →
        b.2.start_dt ≤ q.start_dt := by
  induction l with
  | nil =>
    intro acc b _ item hitem
    exact absurd hitem (List.not_mem_nil item)
  | cons x xs ih =>
    intro acc b hb item hitem q hq
    rw [List.foldl_cons] at hb
    rcases List.mem_cons.mp hitem with h | h
    · subst h
      obtain ⟨b1, hb1, hle1⟩ :=
        select_fallback_step_future_le parse now acc item q hq
      rw [hb1] at hb
      obtain ⟨b2, hb2, hle2⟩ := select_fallback_fold_mono parse now xs b1
      rw [hb2] at hb
      have : b2 = b := Option.some_inj.mp hb
      rw [← this]
      exact le_trans hle2 hle1
    · exact ih (select_fallback_step parse now acc x) b hb item h q hq

theorem select_fallback_step_none_of_no_future (parse : String → Option Int)
    (now : Int) (item : JVal)
    (h : ∀ q, ¬ future_prepared parse now item q) :
    select_fallback_step parse now none item = none := by
  cases hf : as_fields item with
  | none => simp [select_fallback_step, hf]
  | some fields =>
    have hobj : item = JVal.obj fields := by
      cases item <;> simp [as_fields] at hf
      rw [hf]
    cases hp : prepare_event_detail_call parse fields with
    | none => simp [select_fallback_step, hf, hp]
    | some p =>
      by_cases hlt : p.start_dt < now
      · simp [select_fallback_step, hf, hp, hlt]
      · exact absurd ⟨fields, hobj, hp, not_lt.mp hlt⟩ (h p)

theorem select_fallback_fold_none_of_no_future (parse : String → Option Int)
    (now : Int) (l : List JVal)
    (h : ∀ item ∈ l, ∀ q, ¬ future_prepared parse now item q) :
    l.foldl (select_fallback_step parse now) none = none := by
  induction l with
  | nil => rfl
  | cons x xs ih =>
    rw [List.foldl_cons]
    rw [select_fallback_step_none_of_no_future parse now x
      (h x (List.mem_cons_self _ _))]
    exact ih (fun item hitem q => h item (List.mem_cons.mpr (Or.inr hitem)) q)

theorem select_fallback_fold_some_of_future (parse : String → Option Int)
    (now : Int) (l : List JVal) :
    ∀ acc item, item ∈ l → ∀ q, future_prepared parse now item q →
      l.foldl (select_fallback_step parse now) acc ≠ none := by
  induction l with
  | nil =>
    intro acc item hitem
    exact absurd hitem (List.not_mem_nil item)
  | cons x xs ih =>
    intro acc item hitem q hq
    rw [List.foldl_cons]
    rcases List.mem_cons.mp hitem with h | h
    · subst h
      obtain ⟨b1, hb1, _⟩ :=
        select_fallback_step_future_le parse now acc item q hq
      rw [hb1]
      obtain ⟨b2, hb2, _⟩ := select_fallback_fold_mono parse now xs b1
      rw [hb2]
      exact Option.some_ne_none b2
    · exact ih (select_fallback_step parse now acc x) item h q hq

theorem build_detail_tasks_no_enrolled_pairs (parse : String → Option Int)
    (raw_events : List JVal)
    (hns : ∀ f, JVal.obj f ∈ raw_events → is_user_enrolled f = false) :
    raw_events.filterMap (fun item =>
      match as_fields item with
      | some fields =>
        if is_user_enrolled fields then
          (prepare_event_detail_call parse fields).map (fun p => (p, fields))
        else none
      | none => none) = ([] : List (Prepared × Dict)) := by
  induction raw_events with
  | nil => rfl
  | cons x xs ih =>
    rw [List.filterMap_cons]
    have hx : (match as_fields x with
        | some fields =>
          if is_user_enrolled fields then
            (prepare_event_detail_call parse fields).map (fun p => (p, fields))
          else none
        | none => none) = (none : Option (Prepared × Dict)) := by
      cases hf : as_fields x with
      | none => simp
      | some fields =>
        have hobj : x = JVal.obj fields := by
          cases x <;> simp [as_fields] at hf
          rw [hf]
        have := hns fields (hobj ▸ List.mem_cons_self x xs)
        simp [this]
    rw [hx]
    exact ih (fun f hf => hns f (List.mem_cons.mpr (Or.inr hf)))

/-- C3: for every schedule in which no event is subscribed, the fallback is
in force: when some event has a complete, parseable identifier/time tuple and
a start at or after `now`, a single enrichment target is selected — the
fallback event, whose start is ≥ `now` and minimal among all such events —
and when no event has a future start, no detail call is scheduled at all
(`coordinator._build_detail_tasks` / `_select_fallback_event`). -/
theorem coordinator_fallback_selection (parse : String → Option Int)
    (raw_events : List JVal) (now : Int)
    (hns : ∀ f, JVal.obj f ∈ raw_events → is_user_enrolled f = false) :
    ((∀ item ∈ raw_events, ∀ q, ¬ future_prepared parse now item q) →
        build_detail_tasks parse raw_events now = ([], []))
    ∧ (∀ ref p, select_fallback_event parse raw_events now = some (ref, p) →
        build_detail_tasks parse raw_events now = ([p], [ref])
        ∧ now ≤ p.start_dt
        ∧ ∀ item ∈ raw_events, ∀ q, future_prepared parse now item q →
            p.start_dt ≤ q.start_dt)
    ∧ ((∃ item ∈ raw_events, ∃ q, future_prepared parse now item q) →
        select_fallback_event parse raw_events now ≠ none) := by
  have hpairs := build_detail_tasks_no_enrolled_pairs parse raw_events hns
  refine ⟨?_, ?_, ?_⟩
  · intro hnofut
    have hsel : select_fallback_event parse raw_events now = none :=
      select_fallback_fold_none_of_no_future parse now raw_events hnofut
    unfold build_detail_tasks
    rw [hpairs, hsel]
  · intro ref p hsel
    refine ⟨?_, ?_, ?_⟩
    · unfold build_detail_tasks
      rw [hpairs, hsel]
    · exact select_fallback_fold_ge parse now raw_events none
        (fun a ha => Option.noConfusion ha) (ref, p) hsel
    · intro item hitem q hq
      exact select_fallback_fold_min parse now raw_events none (ref, p)
        hsel item hitem q hq
  · intro ⟨item, hitem, q, hq⟩
    exact select_fallback_fold_some_of_future parse now raw_events none
      item hitem q hq

/-- Concrete parser for the C3 witness: four known time strings. -/
def c3_parse : String → Option Int := fun s =>
  if s = "s1" then some 100
  else if s = "s2" then some 200
  else if s = "s3" then some 150
  else if s = "s4" then some 250
  else none

/-- An unsubscribed, preparable event starting at 100. -/
def c3_e1_fields : Dict :=
  [("classTypeId", .str "c1"), ("id", .str "e1"),
   ("start", .str "s1"), ("end", .str "s2"), ("subscribed", .bool false)]

/-- An unsubscribed, preparable event starting at 150. -/
def c3_e2_fields : Dict :=
  [("classTypeId", .str "c2"), ("id", .str "e2"),
   ("start", .str "s3"), ("end", .str "s4"), ("subscribed", .bool false)]

/-- A two-event schedule with nothing subscribed. -/
def c3_events : List JVal := [.obj c3_e1_fields, .obj c3_e2_fields]

/-- The detail-call parameters the first event prepares to. -/
def c3_p1 : Prepared :=
  { class_type_id := .str "c1", event_id := "e1", start_dt := 100, end_dt := 200 }

/-- Witness for C3: with both events unsubscribed and `now = 50`, exactly the
earliest future event (start 100) is selected as the single detail task. -/
theorem coordinator_fallback_selection_witness :
    build_detail_tasks c3_parse c3_events 50 = ([c3_p1], [c3_e1_fields])
    ∧ (50 : Int) ≤ c3_p1.start_dt
    ∧ ∀ item ∈ c3_events, ∀ q, future_prepared c3_parse 50 item q →
        c3_p1.start_dt ≤ q.start_dt := by
  have hns : ∀ f, JVal.obj f ∈ c3_events → is_user_enrolled f = false := by
    intro f hf
    rcases List.mem_cons.mp hf with h | h
    · injection h with h1
      subst h1
      rfl
    · rcases List.mem_cons.mp h with h2 | h2
      · injection h2 with h1
        subst h1
        rfl
      · exact absurd h2 (List.not_mem_nil _)
  have h := (coordinator_fallback_selection c3_parse c3_events 50 hns).2.1
    c3_e1_fields c3_p1 rfl
  exact ⟨h.1, h.2.1, h.2.2⟩

/-! ## Branding normalization (client.py)

`_normalize_brand_name` works on ASCII gym names: `html.unescape` is a
parameter (the witness instantiates it with the identity, its behaviour on
entity-free strings), and `str.lower` / `str.title` / the regexes are
modelled on ASCII characters. -/

/-- Python regex `\s` (ASCII whitespace, including vertical tab and form
feed). -/
def isPySpace (c : Char) : Bool :=
  c == ' ' || c == '\t' || c == '\n' || c == '\r'
    || c == Char.ofNat 11 || c == Char.ofNat 12

/-- Python regex `\w` (ASCII model). -/
def isWordChar (c : Char) : Bool :=
  c.isAlphanum || c == '_'

/-- Models `text.strip()`. -/
def pyStrip (l : List Char) : List Char :=
  ((l.dropWhile isPySpace).reverse.dropWhile isPySpace).reverse

/-- Models `re.sub(r"\s+", " ", text)`: collapse every whitespace run to a single
space; `prevSpace` records whether the current position is inside a run. -/
def collapseWsGo (prevSpace : Bool) : List Char → List Char
  | [] => []
  | c :: rest =>
    if isPySpace c then
      if prevSpace then collapseWsGo true rest
      else ' ' :: collapseWsGo true rest
    else c :: collapseWsGo false rest

/-- Python `str.title()` (ASCII model): a cased character is uppercased when
it follows a non-cased character and lowercased otherwise. -/
def pyTitleGo (prevCased : Bool) : List Char → List Char
  | [] => []
  | c :: rest =>
    let cased := c.isAlpha
    let c2 := if cased then (if prevCased then c.toLower else c.toUpper) else c
    c2 :: pyTitleGo cased rest

/-- Models `APOS_FIX_RE.sub("'s", titled)` with `APOS_FIX_RE = re.compile(r"\s*'S\b",
re.IGNORECASE)`: scanning left to right, a (maximal) whitespace run followed
by an apostrophe and `s`/`S` at a word boundary is replaced by `'s`; greedy
`\s*` with backtracking reduces to skipping the whole run, since every
shorter prefix of the run is still followed by whitespace, not an apostrophe.
Fuel-driven recursion; the fuel (initialized to the length) never runs out
before the input does. -/
def aposFixGo : Nat → List Char → List Char
  | 0, l => l
  | _ + 1, [] => []
  | n + 1, c :: rest =>
    match (c :: rest).dropWhile isPySpace with
    | '\'' :: s :: rest2 =>
      if (s == 's' || s == 'S')
          && (rest2.isEmpty || !isWordChar (rest2.headD ' ')) then
        '\'' :: 's' :: aposFixGo n rest2
      else c :: aposFixGo n rest
    | _ => c :: aposFixGo n rest

/-- The full `APOS_FIX_RE.sub` pass. -/
def aposFix (l : List Char) : List Char := aposFixGo l.length l

/-- Models `FitblocksConnectClient._normalize_brand_name`: empty input maps to `""`;
otherwise unescape, strip, collapse whitespace, lowercase, title-case, and
fix the `'S` artifact. -/
def normalize_brand_name (unescape : String → String) (raw : String) : String :=
  if raw == "" then ""
  else
    let text := pyStrip (unescape raw).toList
    let text := collapseWsGo false text
    let lower := text.map Char.toLower
    let titled := pyTitleGo false lower
    (aposFix titled).asString

/-- C9: branding normalization title-cases each word and fixes the trailing
apostrophe-S artifact: both `"BAR'S GYM"` and `"BAR 'S GYM"` normalize to
`"Bar's Gym"` (for any `html.unescape` behaviour that leaves these
entity-free strings unchanged, which Python's does). -/
theorem branding_normalization (unescape : String → String)
    (h1 : unescape "BAR'S GYM" = "BAR'S GYM")
    (h2 : unescape "BAR 'S GYM" = "BAR 'S GYM") :
    normalize_brand_name unescape "BAR'S GYM" = "Bar's Gym"
    ∧ normalize_brand_name unescape "BAR 'S GYM" = "Bar's Gym" := by
  constructor
  · unfold normalize_brand_name
    rw [h1]
    decide
  · unfold normalize_brand_name
    rw [h2]
    decide

/-- Witness for C9 with the identity unescape. -/
theorem branding_normalization_witness :
    normalize_brand_name id "BAR'S GYM" = "Bar's Gym"
    ∧ normalize_brand_name id "BAR 'S GYM" = "Bar's Gym" :=
  branding_normalization id rfl rfl

/-! ## Detail merging (coordinator.py `_merge_event_details`)

The per-(event, result) body of the merge loop.  A `none` result models the
`isinstance(result, Exception) or not isinstance(result, dict)` skip branch.
Roster strings (`first_name`, `surname`, `email`) are modelled as
string-or-absent, the shape the upstream roster carries. -/

/-- Models `(user.get(k) or "")` for roster strings. -/
def jstr_or_empty : Option JVal → String
  | some (.str s) => s
  | _ => ""

/-- Models `s.lower()` (ASCII model). -/
def py_lower (s : String) : String := s.map Char.toLower

/-- Models `isinstance(x, int)` with the value: Python bools are ints. -/
def py_as_int : JVal → Option Int
  | .int n => some n
  | .bool b => some (if b then 1 else 0)
  | _ => none

/-- Models `result.get(k, [])` for list-valued payload fields (payloads carry lists
here; a present non-list would make the source's `for` raise, which is
outside the modelled payload shape). -/
def jval_arr : Option JVal → List JVal
  | some (.arr xs) => xs
  | _ => []

/-- Models `if desc: item["description"] = desc`. -/
def merge_description (item result : Dict) : Dict :=
  match dget result "description" with
  | none => item
  | some v => if jTruthy (some v) then dset item "description" v else item

/-- The renamed numeric/boolean field mapping of `_merge_event_details`. -/
def merge_detail_mapping : List (String × String) :=
  [("creditsRemaining", "credits_remaining"),
   ("totalPossibleRegistrations", "total_possible_registrations"),
   ("totalRegistrations", "total_registrations"),
   ("totalUsersOnWaitingList", "total_users_on_waiting_list"),
   ("isFull", "is_full")]

/-- One `for src, dest in mapping.items()` iteration: copy the field when the
source key is present, and collect an integer `credits_remaining` value. -/
def merge_mapped_field (result : Dict) (acc : Dict × List Int)
    (sd : String × String) : Dict × List Int :=
  match dget result sd.1 with
  | none => acc
  | some v =>
    let item2 := dset acc.1 sd.2 v
    let credits2 :=
      if sd.2 = "credits_remaining" then
        match py_as_int v with
        | some n => acc.2 ++ [n]
        | none => acc.2
      else acc.2
    (item2, credits2)

/-- The full mapped-field loop, also returning the credits values collected
for this event (appended to `credits_values` in the source). -/
def merge_mapped_fields (item result : Dict) : Dict × List Int :=
  merge_detail_mapping.foldl (merge_mapped_field result) (item, [])

/-- Models `if schedule_registration_id: item["scheduleRegistrationId"] = ...`. -/
def merge_registration_id (item result : Dict) : Dict :=
  if jTruthy (dget result "scheduleRegistrationId") then
    dset item "scheduleRegistrationId"
      ((dget result "scheduleRegistrationId").getD .null)
  else item

/-- The participants list: `"first surname"` display names, dropping entries
that strip to empty. -/
def build_participants (result : Dict) : List String :=
  (jval_arr (dget result "signedUpUsers")).filterMap fun u =>
    match as_fields u with
    | none => none
    | some fields =>
      let first := pyStrip (jstr_or_empty (dget fields "first_name")).toList
      let last := pyStrip (jstr_or_empty (dget fields "surname")).toList
      let full := pyStrip (first ++ [' '] ++ last)
      if full.isEmpty then none else some full.asString

/-- Models `if participants: item["participants"] = participants`. -/
def merge_participants (item result : Dict) : Dict :=
  let participants := build_participants result
  if participants.isEmpty then item
  else dset item "participants" (.arr (participants.map .str))

/-- Models `coordinator._extract_user_first_name`: scan `athletes` for a
case-insensitively matching email; the loop returns at the first match, with
`athlete.get("first_name") or None`. -/
def extract_user_first_name (result : Dict) (user_email : String) :
    Option String :=
  go (jval_arr (dget result "athletes"))
where
  go : List JVal → Option String
    | [] => none
    | a :: rest =>
      match as_fields a with
      | none => go rest
      | some fields =>
        if py_lower (jstr_or_empty (dget fields "email")) = user_email then
          match dget fields "first_name" with
          | some (.str s) => if s ≠ "" then some s else none
          | _ => none
        else go rest

/-- Models `coordinator._extract_user_first_name_by_registration_id`: scan
`signedUpUsers` for a matching `schedule_registration_id` (Python `!=`,
modelled as structural inequality); the loop returns at the first match,
requiring a non-empty string `first_name`. -/
def extract_user_first_name_by_registration_id (result : Dict) (srid : JVal) :
    Option String :=
  go (jval_arr (dget result "signedUpUsers"))
where
  go : List JVal → Option String
    | [] => none
    | u :: rest =>
      match as_fields u with
      | none => go rest
      | some fields =>
        if dget fields "schedule_registration_id" == some srid then
          match dget fields "first_name" with
          | some (.str s) => if s ≠ "" then some s else none
          | _ => none
        else go rest

/-- The identity-resolution tail of the merge body: the email path when the
configured account email is known, otherwise the registration-id path. -/
def merge_user_first_name (item result : Dict) (user_email : String) : Dict :=
  if user_email ≠ "" then
    match extract_user_first_name result user_email with
    | some n => dset item "user_first_name" (.str n)
    | none => item
  else if jTruthy (dget result "scheduleRegistrationId") then
    match extract_user_first_name_by_registration_id result
        ((dget result "scheduleRegistrationId").getD .null) with
    | some n => dset item "user_first_name" (.str n)
    | none => item
  else item

/-- The per-pair body of `_merge_event_details`: apply every merge stage in
source order and return the updated event plus the credits values collected.
A `none` result (exception or non-dict) leaves the event untouched. -/
def merge_one_event (item : Dict) (result : Option Dict) (user_email : String) :
    Dict × List Int :=
  match result with
  | none => (item, [])
  | some r =>
    let mf := merge_mapped_fields (merge_description item r) r
    (merge_user_first_name
      (merge_participants (merge_registration_id mf.1 r) r) r user_email,
     mf.2)

/-- The only keys `_merge_event_details` ever writes on an event. -/
def enrichment_keys : List String :=
  ["description", "credits_remaining", "total_possible_registrations",
   "total_registrations", "total_users_on_waiting_list", "is_full",
   "scheduleRegistrationId", "participants", "user_first_name"]

theorem merge_description_frame (item result : Dict) (k : String)
    (hk : k ≠ "description") :
    dget (merge_description item result) k = dget item k := by
  unfold merge_description
  cases hd : dget result "description" with
  | none => rfl
  | some v =>
    simp only []
    by_cases ht : jTruthy (some v) = true
    · rw [if_pos ht]
      exact dget_dset_ne item k "description" v (Ne.symm hk)
    · rw [if_neg ht]

theorem merge_mapped_field_frame (result : Dict) (acc : Dict × List Int)
    (sd : String × String) (k : String) (hk : sd.2 ≠ k) :
    dget (merge_mapped_field result acc sd).1 k = dget acc.1 k := by
  unfold merge_mapped_field
  cases hd : dget result sd.1 with
  | none => rfl
  | some v =>
    simp only []
    exact dget_dset_ne acc.1 k sd.2 v hk

theorem merge_mapped_fold_frame (result : Dict) (k : String)
    (l : List (String × String)) :
    ∀ acc, (∀ sd ∈ l, sd.2 ≠ k) →
      dget (l.foldl (merge_mapped_field result) acc).1 k = dget acc.1 k := by
  induction l with
  | nil =>
    intro acc _
    rfl
  | cons x xs ih =>
    intro acc hl
    rw [List.foldl_cons]
    rw [ih (merge_mapped_field result acc x)
      (fun sd hsd => hl sd (List.mem_cons.mpr (Or.inr hsd)))]
    exact merge_mapped_field_frame result acc x k (hl x (List.mem_cons_self _ _))

theorem merge_registration_id_frame (item result : Dict) (k : String)
    (hk : k ≠ "scheduleRegistrationId") :
    dget (merge_registration_id item result) k = dget item k := by
  unfold merge_registration_id
  by_cases ht : jTruthy (dget result "scheduleRegistrationId") = true
  · rw [if_pos ht]
    exact dget_dset_ne item k "scheduleRegistrationId" _ (Ne.symm hk)
  · rw [if_neg ht]

theorem merge_participants_frame (item result : Dict) (k : String)
    (hk : k ≠ "participants") :
    dget (merge_participants item result) k = dget item k := by
  unfold merge_participants
  simp only []
  by_cases ht : (build_participants result).isEmpty = true
  · rw [if_pos ht]
  · rw [if_neg ht]
    exact dget_dset_ne item k "participants" _ (Ne.symm hk)

theorem merge_user_first_name_frame (item result : Dict) (user_email : String)
    (k : String) (hk : k ≠ "user_first_name") :
    dget (merge_user_first_name item result user_email) k = dget item k := by
  unfold merge_user_first_name
  by_cases he : user_email ≠ ""
  · rw [if_pos he]
    cases extract_user_first_name result user_email with
    | none => rfl
    | some n => exact dget_dset_ne item k "user_first_name" _ (Ne.symm hk)
  · rw [if_neg he]
    by_cases ht : jTruthy (dget result "scheduleRegistrationId") = true
    · rw [if_pos ht]
      cases extract_user_first_name_by_registration_id result
          ((dget result "scheduleRegistrationId").getD .null) with
      | none => rfl
      | some n => exact dget_dset_ne item k "user_first_name" _ (Ne.symm hk)
    · rw [if_neg ht]

/-- C10: for every event and every detail payload, the merge body only adds
or overwrites the enrichment keys (`description`, `credits_remaining`,
`total_possible_registrations`, `total_registrations`,
`total_users_on_waiting_list`, `is_full`, `scheduleRegistrationId`,
`participants`, `user_first_name`); every other key of the event — in
particular its identifier, start, end, title and subscribed fields — is left
unchanged (`coordinator._merge_event_details`). -/
theorem merge_event_details_frame (item : Dict) (result : Option Dict)
    (user_email : String) (k : String) (hk : k ∉ enrichment_keys) :
    dget (merge_one_event item result user_email).1 k = dget item k := by
  simp only [enrichment_keys, List.mem_cons, not_or] at hk
  obtain ⟨h1, h2, h3, h4, h5, h6, h7, h8, h9, -⟩ := hk
  cases result with
  | none => rfl
  | some r =>
    unfold merge_one_event
    simp only []
    rw [merge_user_first_name_frame _ r user_email k h9]
    rw [merge_participants_frame _ r k h8]
    rw [merge_registration_id_frame _ r k h7]
    unfold merge_mapped_fields
    rw [merge_mapped_fold_frame r k merge_detail_mapping
      (merge_description item r, []) ?hl]
    case hl =>
      intro sd hsd
      simp only [merge_detail_mapping, List.mem_cons] at hsd
      rcases hsd with h | h | h | h | h | h
      · rw [h]; exact Ne.symm h2
      · rw [h]; exact Ne.symm h3
      · rw [h]; exact Ne.symm h4
      · rw [h]; exact Ne.symm h5
      · rw [h]; exact Ne.symm h6
      · exact absurd h (List.not_mem_nil sd)
    exact merge_description_frame item r k h1

/-- A concrete event for the C10 witness. -/
def c10_item : Dict :=
  [("id", .str "e1"), ("title", .str "Strength"), ("start", .str "s1"),
   ("end", .str "s2"), ("subscribed", .bool true)]

/-- A concrete detail payload for the C10 witness. -/
def c10_result : Dict :=
  [("description", .str "class"), ("creditsRemaining", .int 5),
   ("scheduleRegistrationId", .str "r1")]

/-- Witness for C10: merging a concrete payload leaves the `title` key of the
event unchanged. -/
theorem merge_event_details_frame_witness :
    dget (merge_one_event c10_item (some c10_result) "user@example.com").1
        "title" = dget c10_item "title" :=
  merge_event_details_frame c10_item (some c10_result) "user@example.com"
    "title" (by decide)
